import Mathlib

/-!
# Verification of the hive metrics accumulation engine

Shallow embedding of `src/pkg/controller/metrics/metrics.go` (package
`metrics` of the hive repository): the cluster-deployment accumulator
(`newClusterAccumulator`, `ensureClusterTypeBuckets`, `processCluster`,
`GetClusterDeploymentType`), the job classifier (`processJobs`) and the
per-tick control flow of `Calculator.Start`.

Modelling conventions:
* Go `map[string]T` values become association lists `List (String × T)`;
  `m[k]` (read) is `mapGet`, `m[k] = v` is `mapSet`, `m[k]++` is `mapInc`
  (read with the zero default, write back).  Writing to an entry of a *nil*
  map is a Go run-time panic; fallible operations therefore return `Option`,
  with `none` standing for a panic.
* `time.Time` / `time.Duration` are modelled as `Int` nanoseconds; the wall
  clock read by `time.Since` is passed in explicitly as `now`, so
  `time.Since t = now - t`.
* Counters (Go `int`) are modelled as `Nat`: they start at zero and are only
  ever incremented.
-/

namespace HiveMetrics

/-- Go `corev1.ConditionStatus`: the code only compares against
`corev1.ConditionTrue`. -/
inductive ConditionStatus where
  | conditionTrue
  | conditionFalse
  | conditionUnknown
deriving DecidableEq

/-- One entry of `cd.Status.Conditions`: a condition type (a string type in
the hive API) and its status. -/
structure ClusterDeploymentCondition where
  condType : String
  status : ConditionStatus
deriving DecidableEq

/-- A `hivev1.ClusterDeployment`, restricted to the fields `metrics.go`
reads: `CreationTimestamp` (nanoseconds), `Labels` (a Go map that can be
nil, hence `Option`), `Status.Installed` and `Status.Conditions`. -/
structure ClusterDeployment where
  creationTimestamp : Int
  labels : Option (List (String × String))
  installed : Bool
  conditions : List ClusterDeploymentCondition
deriving DecidableEq

/-- A `batchv1.Job`, restricted to the fields `processJobs` reads:
`Status.CompletionTime` (nil when not finished) and `Status.Failed`
(a count, modelled as `Nat`). -/
structure Job where
  completionTime : Option Int
  failed : Nat
deriving DecidableEq

/-! ## Association-list maps (the embedding of Go maps) -/

/-- Go map read `m[k]`, as an optional value (`none` = key absent). -/
def mapGet {A : Type} : List (String × A) → String → Option A
  | [], _ => none
  | (k0, v0) :: rest, k => if k0 = k then some v0 else mapGet rest k

/-- Go map write `m[k] = v`: replace the binding of `k`, or append it. -/
def mapSet {A : Type} : List (String × A) → String → A → List (String × A)
  | [], k, v => [(k, v)]
  | (k0, v0) :: rest, k, v =>
      if k0 = k then (k, v) :: rest else (k0, v0) :: mapSet rest k v

/-- Go `m[k]++` on a (non-nil) counter map: a read with the zero default
followed by a write back. -/
def mapInc (m : List (String × Nat)) (k : String) : List (String × Nat) :=
  mapSet m k ((mapGet m k).getD 0 + 1)

/-- The Go idiom `_, ok := m[k]; if !ok { m[k] = 0 }` used by
`ensureClusterTypeBuckets`. -/
def seedZero (m : List (String × Nat)) (k : String) : List (String × Nat) :=
  if (mapGet m k).isSome then m else mapSet m k 0

theorem mapGet_mapSet_self {A : Type} (m : List (String × A)) (k : String) (v : A) :
    mapGet (mapSet m k v) k = some v := by
  induction m with
  | nil => simp [mapGet, mapSet]
  | cons p rest ih =>
      obtain ⟨k0, v0⟩ := p
      by_cases h : k0 = k
      · simp [mapGet, mapSet, h]
      · simp [mapGet, mapSet, h, ih]

theorem mapGet_mapSet_ne {A : Type} (m : List (String × A)) (k k' : String) (v : A)
    (h : k' ≠ k) : mapGet (mapSet m k v) k' = mapGet m k' := by
  induction m with
  | nil => simp [mapGet, mapSet, Ne.symm h]
  | cons p rest ih =>
      obtain ⟨k0, v0⟩ := p
      by_cases h0 : k0 = k
      · subst h0
        simp [mapGet, mapSet, Ne.symm h]
      · simp [mapGet, mapSet, h0, ih]

/-- Updating every entry in place by its own key (the embedding of a Go
`for k, v := range m` loop that writes `m[k]`) commutes with lookup. -/
theorem mapGet_map_keyed {A : Type} (m : List (String × A)) (f : String → A → A)
    (k : String) :
    mapGet (m.map (fun p => (p.1, f p.1 p.2))) k = (mapGet m k).map (f k) := by
  induction m with
  | nil => simp [mapGet]
  | cons p rest ih =>
      obtain ⟨k0, v0⟩ := p
      by_cases h : k0 = k
      · subst h; simp [mapGet]
      · simp [mapGet, h, ih]

theorem isSome_mapGet_mapSet {A : Type} (m : List (String × A)) (k k' : String) (v : A)
    (h : (mapGet m k').isSome = true) :
    (mapGet (mapSet m k v) k').isSome = true := by
  by_cases hk : k' = k
  · subst hk; simp [mapGet_mapSet_self]
  · rwa [mapGet_mapSet_ne m k k' v hk]

theorem isSome_mapGet_mapInc (m : List (String × Nat)) (k k' : String)
    (h : (mapGet m k').isSome = true) :
    (mapGet (mapInc m k) k').isSome = true :=
  isSome_mapGet_mapSet m k k' _ h

theorem isSome_mapGet_seedZero_self (m : List (String × Nat)) (k : String) :
    (mapGet (seedZero m k) k).isSome = true := by
  unfold seedZero
  cases hm : mapGet m k with
  | some v => simp [hm]
  | none => simp [hm, mapGet_mapSet_self]

theorem isSome_mapGet_seedZero (m : List (String × Nat)) (k k' : String)
    (h : (mapGet m k').isSome = true) :
    (mapGet (seedZero m k) k').isSome = true := by
  unfold seedZero
  cases hm : mapGet m k with
  | some v => simp [hm, h]
  | none =>
      simp only [hm, Option.isSome_none, Bool.false_eq_true, if_false]
      exact isSome_mapGet_mapSet m k k' 0 h

/-- The count read by the metrics (`getD 0` = Go's zero default) after a
`m[k]++`. -/
theorem count_mapInc (m : List (String × Nat)) (k t : String) :
    (mapGet (mapInc m k) t).getD 0 =
      (mapGet m t).getD 0 + (if t = k then 1 else 0) := by
  by_cases h : t = k
  · subst h; simp [mapInc, mapGet_mapSet_self]
  · simp [mapInc, mapGet_mapSet_ne m k t _ h, h]

/-- Zero-seeding never changes a count read with the zero default. -/
theorem count_seedZero (m : List (String × Nat)) (k t : String) :
    (mapGet (seedZero m k) t).getD 0 = (mapGet m t).getD 0 := by
  unfold seedZero
  cases hm : mapGet m k with
  | some v => simp [hm]
  | none =>
      by_cases h : t = k
      · subst h; simp [hm, mapGet_mapSet_self]
      · simp [hm, mapGet_mapSet_ne m k t 0 h]

/-! ## Constants of the hive API and the duration parser -/

/-- The `hive.openshift.io/cluster-type` label key
(`hivev1.HiveClusterTypeLabel`), named in the doc comment of
`GetClusterDeploymentType`. -/
def HiveClusterTypeLabel : String := "hive.openshift.io/cluster-type"

/-- Modelled from the spec: `hivev1.DefaultClusterType`, the "well-known
constant" the type dimension defaults to when the label is absent.  Its
defining file is not under `src/`; the spec fixes only that it is a fixed,
well-known constant (hence in particular not the empty string). -/
def DefaultClusterType : String := "unspecified"

/-- Modelled from the spec: `hivev1.AllClusterDeploymentConditions`, the
"full known set of condition types" from which the conditions map's keys are
fixed at construction.  Its defining file is not under `src/`; the claims
depend only on it being a fixed finite list of names. -/
def AllClusterDeploymentConditions : List String :=
  ["ClusterImageSetNotFound", "ControlPlaneCertificateNotFound", "Unreachable"]

/-- Nanoseconds per unit suffix recognised by the duration parser. -/
def unitScale : String → Option Int
  | "ns" => some 1
  | "us" => some 1000
  | "ms" => some 1000000
  | "s" => some 1000000000
  | "m" => some 60000000000
  | "h" => some 3600000000000
  | _ => none

/-- Leading decimal digits of a character list, and the remainder. -/
def spanDigits : List Char → List Char × List Char
  | [] => ([], [])
  | c :: cs =>
      if c.isDigit then
        let p := spanDigits cs
        (c :: p.1, p.2)
      else ([], c :: cs)

/-- Value of a digit string. -/
def digitsToNat (ds : List Char) : Nat :=
  ds.foldl (fun acc c => acc * 10 + (c.toNat - 48)) 0

/-- Modelled from the spec: Go's `time.ParseDuration` (standard library, not
under `src/`), restricted to the shapes the configuration and tests use —
`"0"` and a nonnegative decimal integer followed by exactly one unit among
`ns`/`us`/`ms`/`s`/`m`/`h` — returning nanoseconds.  Anything else is a
parse error (`none`). -/
def ParseDuration (s : String) : Option Int :=
  if s = "0" then some 0
  else
    let p := spanDigits s.toList
    if p.1 = [] then none
    else
      match unitScale (String.mk p.2) with
      | none => none
      | some scale => some ((digitsToNat p.1 : Int) * scale)

/-! ## The cluster accumulator (`metrics.go` lines 198-302) -/

/-- `clusterAccumulator`: the four counting maps plus the optional creation
time filter.  Counter maps are keyed by cluster type; `uninstalled` is keyed
by the "greater than" duration string, `conditions` by the condition type. -/
structure clusterAccumulator where
  clusterCreationTimeFilter : Option Int
  total : List (String × Nat)
  installed : List (String × Nat)
  uninstalled : List (String × List (String × Nat))
  conditions : List (String × List (String × Nat))
deriving DecidableEq

/-- The bucket-seeding loop of `newClusterAccumulator`: parse every duration
string (construction fails on the first error) and give each bucket an empty
inner map. -/
def seedBuckets (acc : List (String × List (String × Nat))) :
    List String → Option (List (String × List (String × Nat)))
  | [] => some acc
  | durStr :: rest =>
      match ParseDuration durStr with
      | none => none
      | some _ => seedBuckets (mapSet acc durStr []) rest

/-- `newClusterAccumulator`: empty total/installed maps, one empty inner map
per configured bucket (failing if a duration string does not parse), one
empty inner map per known condition type. -/
def newClusterAccumulator (clusterCreationTimeFilter : Option Int)
    (uninstalledDurationBuckets : List String) : Option clusterAccumulator :=
  match seedBuckets [] uninstalledDurationBuckets with
  | none => none
  | some unins =>
      some
        { clusterCreationTimeFilter := clusterCreationTimeFilter
          total := []
          installed := []
          uninstalled := unins
          conditions :=
            AllClusterDeploymentConditions.foldl (fun m c => mapSet m c []) [] }

/-- `GetClusterDeploymentType`: the value of the cluster-type label if the
labels map is non-nil and the key is set, otherwise the default constant. -/
def GetClusterDeploymentType (cd : ClusterDeployment) : String :=
  match cd.labels with
  | none => DefaultClusterType
  | some ls =>
      match mapGet ls HiveClusterTypeLabel with
      | none => DefaultClusterType
      | some typeStr => typeStr

/-- `ensureClusterTypeBuckets`: seed a zero entry for `clusterType` in
`total`, `installed`, and every inner map of `uninstalled` and
`conditions`. -/
def ensureClusterTypeBuckets (ca : clusterAccumulator) (clusterType : String) :
    clusterAccumulator :=
  { ca with
    total := seedZero ca.total clusterType
    installed := seedZero ca.installed clusterType
    uninstalled := ca.uninstalled.map (fun p => (p.1, seedZero p.2 clusterType))
    conditions := ca.conditions.map (fun p => (p.1, seedZero p.2 clusterType)) }

/-- The condition loop at the end of `processCluster`:
`ca.conditions[cond.Type][clusterType]++` for every condition with status
true.  When `cond.Type` is not a key of `ca.conditions`, the outer read
yields Go's zero value — a nil map — and the write to it is a run-time
panic, modelled as `none`. -/
def processConditions (ca : clusterAccumulator) (clusterType : String) :
    List ClusterDeploymentCondition → Option clusterAccumulator
  | [] => some ca
  | cond :: rest =>
      if cond.status = ConditionStatus.conditionTrue then
        match mapGet ca.conditions cond.condType with
        | none => none
        | some inner =>
            processConditions
              { ca with
                conditions := mapSet ca.conditions cond.condType (mapInc inner clusterType) }
              clusterType rest
      else processConditions ca clusterType rest

/-- The creation-time filter at the top of `processCluster`:
skip when a filter is set and `time.Since(creation) > filter`. -/
def skipsCluster (filter : Option Int) (now : Int) (cd : ClusterDeployment) : Bool :=
  match filter with
  | none => false
  | some f => decide (now - cd.creationTimestamp > f)

/-- `processCluster`: skip old clusters when filtered; resolve the type;
seed it everywhere; `total[type]++`; then either `installed[type]++` or one
increment per bucket whose parsed threshold is exceeded; finally the
condition loop (which can panic, hence `Option`). -/
def processCluster (now : Int) (ca : clusterAccumulator) (cd : ClusterDeployment) :
    Option clusterAccumulator :=
  if skipsCluster ca.clusterCreationTimeFilter now cd then some ca
  else
    let clusterType := GetClusterDeploymentType cd
    let ca1 := ensureClusterTypeBuckets ca clusterType
    let ca2 := { ca1 with total := mapInc ca1.total clusterType }
    let ca3 :=
      if cd.installed then { ca2 with installed := mapInc ca2.installed clusterType }
      else
        let uninstalledDur := now - cd.creationTimestamp
        { ca2 with
          uninstalled :=
            ca2.uninstalled.map (fun p =>
              (p.1,
                if uninstalledDur > (ParseDuration p.1).getD 0 then mapInc p.2 clusterType
                else p.2)) }
    processConditions ca3 clusterType cd.conditions

/-- The `for _, cd := range clusterDeployments.Items` loop of
`Calculator.Start`; a panic in any `processCluster` aborts the whole pass. -/
def processClusters (now : Int) (ca : clusterAccumulator) :
    List ClusterDeployment → Option clusterAccumulator
  | [] => some ca
  | cd :: rest =>
      match processCluster now ca cd with
      | none => none
      | some ca2 => processClusters now ca2 rest

/-! ## The job classifier (`processJobs`, lines 183-196) -/

/-- The loop body of `processJobs` with its two counters. -/
def processJobsLoop (running failed : Nat) : List Job → Nat × Nat
  | [] => (running, failed)
  | job :: rest =>
      if job.completionTime = none then
        if job.failed > 0 then processJobsLoop running (failed + 1) rest
        else processJobsLoop (running + 1) failed rest
      else processJobsLoop running failed rest

/-- `processJobs`: count running and failed among the not-yet-completed
jobs. -/
def processJobs (jobs : List Job) : Nat × Nat :=
  processJobsLoop 0 0 jobs

/-! ## One tick of `Calculator.Start` (lines 118-178)

The tick closure passed to `wait.Until`, as a pure function of what the
external collaborators return: the cluster list (`none` = list error), the
configured bucket strings (`Start` passes the literal list
`"0h","1h","2h","8h","24h","72h"` and a nil filter), and the two job lists
(`none` = list error).  The outcome records what each gauge family was set
to this tick (`none` = not published) and whether the closure panicked
(which, through `wait.Until`'s crash handler, takes the process down; a
plain early `return` does not). -/

structure TickOutcome where
  clusterMetricsPublished : Option clusterAccumulator
  installJobMetrics : Option (Nat × Nat)
  uninstallJobMetrics : Option (Nat × Nat)
  panicked : Bool
deriving DecidableEq

/-- Lines 145-174: the two job sections, each independently guarded by its
own list error. -/
def jobSections (clusterMetrics : Option clusterAccumulator)
    (installJobs uninstallJobs : Option (List Job)) : TickOutcome :=
  { clusterMetricsPublished := clusterMetrics
    installJobMetrics := installJobs.map processJobs
    uninstallJobMetrics := uninstallJobs.map processJobs
    panicked := false }

/-- The whole tick closure.  Note the `return` on line 133: when
`newClusterAccumulator` fails, it exits the closure, so the job sections do
not run that tick (the loop itself continues at the next interval). -/
def runTick (now : Int) (clusterDeployments : Option (List ClusterDeployment))
    (uninstalledDurationBuckets : List String)
    (installJobs uninstallJobs : Option (List Job)) : TickOutcome :=
  match clusterDeployments with
  | none => jobSections none installJobs uninstallJobs
  | some cds =>
      match newClusterAccumulator none uninstalledDurationBuckets with
      | none =>
          { clusterMetricsPublished := none
            installJobMetrics := none
            uninstallJobMetrics := none
            panicked := false }
      | some accumulator =>
          match processClusters now accumulator cds with
          | none =>
              { clusterMetricsPublished := none
                installJobMetrics := none
                uninstallJobMetrics := none
                panicked := true }
          | some acc => jobSections (some acc) installJobs uninstallJobs

/-! ## Observers: the counts the published gauges read -/

/-- `ca.total[t]` as read when publishing (Go's zero default). -/
def totalCount (ca : clusterAccumulator) (t : String) : Nat :=
  (mapGet ca.total t).getD 0

/-- `ca.installed[t]`. -/
def installedCount (ca : clusterAccumulator) (t : String) : Nat :=
  (mapGet ca.installed t).getD 0

/-- `ca.uninstalled[b][t]`. -/
def bucketCount (ca : clusterAccumulator) (b t : String) : Nat :=
  (mapGet ((mapGet ca.uninstalled b).getD []) t).getD 0

/-- `ca.conditions[c][t]`. -/
def conditionCount (ca : clusterAccumulator) (c t : String) : Nat :=
  (mapGet ((mapGet ca.conditions c).getD []) t).getD 0

/-! ## Lemmas about the condition loop -/

/-- The condition loop only writes the `conditions` field. -/
theorem processConditions_fields (clusterType : String)
    (conds : List ClusterDeploymentCondition) :
    ∀ ca ca', processConditions ca clusterType conds = some ca' →
      ca'.total = ca.total ∧ ca'.installed = ca.installed ∧
      ca'.uninstalled = ca.uninstalled ∧
      ca'.clusterCreationTimeFilter = ca.clusterCreationTimeFilter := by
  induction conds with
  | nil =>
      intro ca ca' h
      simp only [processConditions, Option.some.injEq] at h
      subst h
      exact ⟨rfl, rfl, rfl, rfl⟩
  | cons cond rest ih =>
      intro ca ca' h
      by_cases hs : cond.status = ConditionStatus.conditionTrue
      · cases hm : mapGet ca.conditions cond.condType with
        | none => simp [processConditions, hs, hm] at h
        | some inner =>
            simp only [processConditions, hs, if_true, hm] at h
            obtain ⟨h1, h2, h3, h4⟩ := ih _ _ h
            exact ⟨h1, h2, h3, h4⟩
      · simp only [processConditions, hs, if_false] at h
        exact ih _ _ h

/-- A status-true condition whose type is absent from the conditions map
makes the loop panic (`none`), whatever came before it in the list. -/
theorem processConditions_unknown (clusterType tU : String)
    (conds : List ClusterDeploymentCondition) :
    ∀ ca, (∃ c ∈ conds, c.status = ConditionStatus.conditionTrue ∧ c.condType = tU) →
      mapGet ca.conditions tU = none →
      processConditions ca clusterType conds = none := by
  induction conds with
  | nil =>
      intro ca hex _
      simp at hex
  | cons cond rest ih =>
      intro ca hex hnone
      obtain ⟨c, hc, hcs, hct⟩ := hex
      by_cases hs : cond.status = ConditionStatus.conditionTrue
      · cases hm : mapGet ca.conditions cond.condType with
        | none => simp [processConditions, hs, hm]
        | some inner =>
            have hne : cond.condType ≠ tU := by
              intro he
              rw [he, hnone] at hm
              cases hm
            have hcr : c ∈ rest := by
              rcases List.mem_cons.mp hc with h1 | h1
              · subst h1; exact absurd hct hne
              · exact h1
            simp only [processConditions, hs, if_true, hm]
            apply ih
            · exact ⟨c, hcr, hcs, hct⟩
            · show mapGet (mapSet ca.conditions cond.condType _) tU = none
              rw [mapGet_mapSet_ne _ _ _ _ (Ne.symm hne)]
              exact hnone
      · have hcr : c ∈ rest := by
          rcases List.mem_cons.mp hc with h1 | h1
          · subst h1; exact absurd hcs hs
          · exact h1
        simp only [processConditions, hs, if_false]
        exact ih ca ⟨c, hcr, hcs, hct⟩ hnone

/-- A key present in the conditions map stays present through the loop. -/
theorem processConditions_conditions_isSome (clusterType : String)
    (conds : List ClusterDeploymentCondition) :
    ∀ ca ca' c, processConditions ca clusterType conds = some ca' →
      (mapGet ca.conditions c).isSome = true →
      (mapGet ca'.conditions c).isSome = true := by
  induction conds with
  | nil =>
      intro ca ca' c h hc
      simp only [processConditions, Option.some.injEq] at h
      subst h
      exact hc
  | cons cond rest ih =>
      intro ca ca' c h hc
      by_cases hs : cond.status = ConditionStatus.conditionTrue
      · cases hm : mapGet ca.conditions cond.condType with
        | none => simp [processConditions, hs, hm] at h
        | some inner =>
            simp only [processConditions, hs, if_true, hm] at h
            exact ih _ _ _ h (isSome_mapGet_mapSet _ _ _ _ hc)
      · simp only [processConditions, hs, if_false] at h
        exact ih _ _ _ h hc

/-! ## Specialised lookup lemmas for the two keyed in-place updates -/

theorem mapGet_map_seedZero (m : List (String × List (String × Nat))) (t k : String) :
    mapGet (m.map (fun p => (p.1, seedZero p.2 t))) k =
      (mapGet m k).map (fun v => seedZero v t) := by
  induction m with
  | nil => simp [mapGet]
  | cons p rest ih =>
      obtain ⟨k0, v0⟩ := p
      by_cases h : k0 = k
      · subst h; simp [mapGet]
      · simp [mapGet, h, ih]

theorem mapGet_map_bucket (m : List (String × List (String × Nat))) (D : Int)
    (t k : String) :
    mapGet (m.map (fun p =>
        (p.1, if D > (ParseDuration p.1).getD 0 then mapInc p.2 t else p.2))) k =
      (mapGet m k).map
        (fun v => if D > (ParseDuration k).getD 0 then mapInc v t else v) := by
  induction m with
  | nil => simp [mapGet]
  | cons p rest ih =>
      obtain ⟨k0, v0⟩ := p
      by_cases h : k0 = k
      · subst h; simp [mapGet]
      · simp [mapGet, h, ih]

/-! ## Per-record effect of `processCluster` -/

/-- A filtered-out record is skipped with no side effect at all. -/
theorem processCluster_skip (now : Int) (ca : clusterAccumulator)
    (cd : ClusterDeployment)
    (h : skipsCluster ca.clusterCreationTimeFilter now cd = true) :
    processCluster now ca cd = some ca := by
  unfold processCluster
  rw [h]
  simp

/-- Processing one record changes `total` for exactly the record's resolved
type, by exactly one. -/
theorem processCluster_totalCount (now : Int) (ca ca' : clusterAccumulator)
    (cd : ClusterDeployment)
    (hskip : skipsCluster ca.clusterCreationTimeFilter now cd = false)
    (h : processCluster now ca cd = some ca') (t : String) :
    totalCount ca' t =
      totalCount ca t + (if t = GetClusterDeploymentType cd then 1 else 0) := by
  unfold processCluster at h
  rw [hskip] at h
  simp only [Bool.false_eq_true, if_false] at h
  cases hins : cd.installed with
  | true =>
      rw [hins] at h
      simp only [if_true] at h
      obtain ⟨ht, -, -, -⟩ := processConditions_fields _ _ _ _ h
      simp only [ensureClusterTypeBuckets] at ht
      unfold totalCount
      rw [ht, count_mapInc, count_seedZero]
  | false =>
      rw [hins] at h
      simp only [Bool.false_eq_true, if_false] at h
      obtain ⟨ht, -, -, -⟩ := processConditions_fields _ _ _ _ h
      simp only [ensureClusterTypeBuckets] at ht
      unfold totalCount
      rw [ht, count_mapInc, count_seedZero]

/-- Processing one record changes `installed` for exactly the record's
resolved type, by one, and only when the record is installed. -/
theorem processCluster_installedCount (now : Int) (ca ca' : clusterAccumulator)
    (cd : ClusterDeployment)
    (hskip : skipsCluster ca.clusterCreationTimeFilter now cd = false)
    (h : processCluster now ca cd = some ca') (t : String) :
    installedCount ca' t =
      installedCount ca t +
        (if cd.installed = true ∧ t = GetClusterDeploymentType cd then 1 else 0) := by
  unfold processCluster at h
  rw [hskip] at h
  simp only [Bool.false_eq_true, if_false] at h
  cases hins : cd.installed with
  | true =>
      rw [hins] at h
      simp only [if_true] at h
      obtain ⟨-, hi, -, -⟩ := processConditions_fields _ _ _ _ h
      simp only [ensureClusterTypeBuckets] at hi
      unfold installedCount
      rw [hi, count_mapInc, count_seedZero]
      simp
  | false =>
      rw [hins] at h
      simp only [Bool.false_eq_true, if_false] at h
      obtain ⟨-, hi, -, -⟩ := processConditions_fields _ _ _ _ h
      simp only [ensureClusterTypeBuckets] at hi
      unfold installedCount
      rw [hi, count_seedZero]
      simp

/-- For an installed record, no uninstalled bucket count moves. -/
theorem processCluster_bucketCount_installed (now : Int) (ca ca' : clusterAccumulator)
    (cd : ClusterDeployment)
    (hskip : skipsCluster ca.clusterCreationTimeFilter now cd = false)
    (hins : cd.installed = true)
    (h : processCluster now ca cd = some ca') (b t : String) :
    bucketCount ca' b t = bucketCount ca b t := by
  unfold processCluster at h
  rw [hskip] at h
  simp only [Bool.false_eq_true, if_false] at h
  rw [hins] at h
  simp only [if_true] at h
  obtain ⟨-, -, hu, -⟩ := processConditions_fields _ _ _ _ h
  simp only [ensureClusterTypeBuckets] at hu
  unfold bucketCount
  rw [hu, mapGet_map_seedZero]
  cases hm : mapGet ca.uninstalled b with
  | none => simp
  | some v => simp [count_seedZero]

/-- For a non-installed record, bucket `b`'s count for the record's resolved
type goes up by one exactly when `b` is configured and its parsed threshold
is strictly exceeded by the record's age; every other count is unchanged. -/
theorem processCluster_bucketCount_not_installed (now : Int)
    (ca ca' : clusterAccumulator) (cd : ClusterDeployment)
    (hskip : skipsCluster ca.clusterCreationTimeFilter now cd = false)
    (hins : cd.installed = false)
    (h : processCluster now ca cd = some ca') (b t : String) :
    bucketCount ca' b t =
      bucketCount ca b t +
        (if (mapGet ca.uninstalled b).isSome = true ∧
            now - cd.creationTimestamp > (ParseDuration b).getD 0 ∧
            t = GetClusterDeploymentType cd
         then 1 else 0) := by
  unfold processCluster at h
  rw [hskip] at h
  simp only [Bool.false_eq_true, if_false] at h
  rw [hins] at h
  simp only [Bool.false_eq_true, if_false] at h
  obtain ⟨-, -, hu, -⟩ := processConditions_fields _ _ _ _ h
  simp only [ensureClusterTypeBuckets] at hu
  unfold bucketCount
  rw [hu, mapGet_map_bucket, mapGet_map_seedZero]
  cases hm : mapGet ca.uninstalled b with
  | none => simp
  | some v =>
      simp only [Option.map_some', Option.isSome_some, true_and, Option.getD_some]
      by_cases hgt : now - cd.creationTimestamp > (ParseDuration b).getD 0
      · rw [if_pos hgt, count_mapInc, count_seedZero]
        by_cases ht : t = GetClusterDeploymentType cd
        · simp [ht, hgt]
        · simp [ht, hgt]
      · rw [if_neg hgt, count_seedZero]
        simp [hgt]

/-- Processing never adds or removes configured buckets. -/
theorem processCluster_uninstalled_isSome (now : Int) (ca ca' : clusterAccumulator)
    (cd : ClusterDeployment)
    (h : processCluster now ca cd = some ca') (b : String) :
    (mapGet ca'.uninstalled b).isSome = (mapGet ca.uninstalled b).isSome := by
  cases hskip : skipsCluster ca.clusterCreationTimeFilter now cd with
  | true =>
      rw [processCluster_skip now ca cd hskip] at h
      cases h
      rfl
  | false =>
      unfold processCluster at h
      rw [hskip] at h
      simp only [Bool.false_eq_true, if_false] at h
      cases hins : cd.installed with
      | true =>
          rw [hins] at h
          simp only [if_true] at h
          obtain ⟨-, -, hu, -⟩ := processConditions_fields _ _ _ _ h
          simp only [ensureClusterTypeBuckets] at hu
          rw [hu, mapGet_map_seedZero]
          cases hm : mapGet ca.uninstalled b <;> simp
      | false =>
          rw [hins] at h
          simp only [Bool.false_eq_true, if_false] at h
          obtain ⟨-, -, hu, -⟩ := processConditions_fields _ _ _ _ h
          simp only [ensureClusterTypeBuckets] at hu
          rw [hu, mapGet_map_bucket, mapGet_map_seedZero]
          cases hm : mapGet ca.uninstalled b <;> simp

/-- Processing never changes the configured filter. -/
theorem processCluster_filter (now : Int) (ca ca' : clusterAccumulator)
    (cd : ClusterDeployment) (h : processCluster now ca cd = some ca') :
    ca'.clusterCreationTimeFilter = ca.clusterCreationTimeFilter := by
  cases hskip : skipsCluster ca.clusterCreationTimeFilter now cd with
  | true =>
      rw [processCluster_skip now ca cd hskip] at h
      cases h
      rfl
  | false =>
      unfold processCluster at h
      rw [hskip] at h
      simp only [Bool.false_eq_true, if_false] at h
      cases hins : cd.installed with
      | true =>
          rw [hins] at h
          simp only [if_true] at h
          obtain ⟨-, -, -, hf⟩ := processConditions_fields _ _ _ _ h
          exact hf
      | false =>
          rw [hins] at h
          simp only [Bool.false_eq_true, if_false] at h
          obtain ⟨-, -, -, hf⟩ := processConditions_fields _ _ _ _ h
          exact hf

/-- A condition type present in the conditions map stays present. -/
theorem processCluster_conditions_isSome (now : Int) (ca ca' : clusterAccumulator)
    (cd : ClusterDeployment) (c : String)
    (h : processCluster now ca cd = some ca')
    (hc : (mapGet ca.conditions c).isSome = true) :
    (mapGet ca'.conditions c).isSome = true := by
  cases hskip : skipsCluster ca.clusterCreationTimeFilter now cd with
  | true =>
      rw [processCluster_skip now ca cd hskip] at h
      cases h
      exact hc
  | false =>
      unfold processCluster at h
      rw [hskip] at h
      simp only [Bool.false_eq_true, if_false] at h
      have hc1 :
          (mapGet (ensureClusterTypeBuckets ca
            (GetClusterDeploymentType cd)).conditions c).isSome = true := by
        simp only [ensureClusterTypeBuckets]
        rw [mapGet_map_seedZero]
        cases hm : mapGet ca.conditions c with
        | none => rw [hm] at hc; cases hc
        | some v => simp
      cases hins : cd.installed with
      | true =>
          rw [hins] at h
          simp only [if_true] at h
          exact processConditions_conditions_isSome _ _ _ _ _ h hc1
      | false =>
          rw [hins] at h
          simp only [Bool.false_eq_true, if_false] at h
          exact processConditions_conditions_isSome _ _ _ _ _ h hc1

/-! ## Zero-seeding: a type's presence across all four map families -/

/-- Cluster type `t` has an entry in `total`, `installed`, and every inner
map of `uninstalled` and `conditions`. -/
def seededIn (ca : clusterAccumulator) (t : String) : Prop :=
  (mapGet ca.total t).isSome = true ∧
  (mapGet ca.installed t).isSome = true ∧
  (∀ b inner, mapGet ca.uninstalled b = some inner →
    (mapGet inner t).isSome = true) ∧
  (∀ c inner, mapGet ca.conditions c = some inner →
    (mapGet inner t).isSome = true)

/-- `ensureClusterTypeBuckets` establishes seededness of its argument. -/
theorem ensure_seededIn_self (ca : clusterAccumulator) (t : String) :
    seededIn (ensureClusterTypeBuckets ca t) t := by
  refine ⟨isSome_mapGet_seedZero_self _ _, isSome_mapGet_seedZero_self _ _, ?_, ?_⟩
  · intro b inner h
    simp only [ensureClusterTypeBuckets] at h
    rw [mapGet_map_seedZero] at h
    cases hm : mapGet ca.uninstalled b with
    | none => rw [hm] at h; cases h
    | some v =>
        rw [hm] at h
        simp only [Option.map_some', Option.some.injEq] at h
        subst h
        exact isSome_mapGet_seedZero_self _ _
  · intro c inner h
    simp only [ensureClusterTypeBuckets] at h
    rw [mapGet_map_seedZero] at h
    cases hm : mapGet ca.conditions c with
    | none => rw [hm] at h; cases h
    | some v =>
        rw [hm] at h
        simp only [Option.map_some', Option.some.injEq] at h
        subst h
        exact isSome_mapGet_seedZero_self _ _

/-- `ensureClusterTypeBuckets` preserves seededness of any type. -/
theorem ensure_seededIn_mono (ca : clusterAccumulator) (t t' : String)
    (h : seededIn ca t) : seededIn (ensureClusterTypeBuckets ca t') t := by
  obtain ⟨h1, h2, h3, h4⟩ := h
  refine ⟨isSome_mapGet_seedZero _ _ _ h1, isSome_mapGet_seedZero _ _ _ h2, ?_, ?_⟩
  · intro b inner hb
    simp only [ensureClusterTypeBuckets] at hb
    rw [mapGet_map_seedZero] at hb
    cases hm : mapGet ca.uninstalled b with
    | none => rw [hm] at hb; cases hb
    | some v =>
        rw [hm] at hb
        simp only [Option.map_some', Option.some.injEq] at hb
        subst hb
        exact isSome_mapGet_seedZero _ _ _ (h3 b v hm)
  · intro c inner hc
    simp only [ensureClusterTypeBuckets] at hc
    rw [mapGet_map_seedZero] at hc
    cases hm : mapGet ca.conditions c with
    | none => rw [hm] at hc; cases hc
    | some v =>
        rw [hm] at hc
        simp only [Option.map_some', Option.some.injEq] at hc
        subst hc
        exact isSome_mapGet_seedZero _ _ _ (h4 c v hm)

/-- The condition loop preserves seededness. -/
theorem processConditions_seededIn (clusterType t : String)
    (conds : List ClusterDeploymentCondition) :
    ∀ ca ca', processConditions ca clusterType conds = some ca' →
      seededIn ca t → seededIn ca' t := by
  induction conds with
  | nil =>
      intro ca ca' h hs
      simp only [processConditions, Option.some.injEq] at h
      subst h
      exact hs
  | cons cond rest ih =>
      intro ca ca' h hs
      by_cases hst : cond.status = ConditionStatus.conditionTrue
      · cases hm : mapGet ca.conditions cond.condType with
        | none => simp [processConditions, hst, hm] at h
        | some inner =>
            simp only [processConditions, hst, if_true, hm] at h
            refine ih _ _ h ?_
            obtain ⟨h1, h2, h3, h4⟩ := hs
            refine ⟨h1, h2, h3, ?_⟩
            intro c inner' hc
            by_cases hce : c = cond.condType
            · subst hce
              rw [mapGet_mapSet_self] at hc
              cases hc
              exact isSome_mapGet_mapInc _ _ _ (h4 _ _ hm)
            · rw [mapGet_mapSet_ne _ _ _ _ hce] at hc
              exact h4 c inner' hc
      · simp only [processConditions, hst, if_false] at h
        exact ih _ _ h hs

/-- `processCluster` preserves seededness of any type. -/
theorem processCluster_seededIn_mono (now : Int) (ca ca' : clusterAccumulator)
    (cd : ClusterDeployment) (t : String)
    (h : processCluster now ca cd = some ca') (hs : seededIn ca t) :
    seededIn ca' t := by
  cases hskip : skipsCluster ca.clusterCreationTimeFilter now cd with
  | true =>
      rw [processCluster_skip now ca cd hskip] at h
      cases h
      exact hs
  | false =>
      unfold processCluster at h
      rw [hskip] at h
      simp only [Bool.false_eq_true, if_false] at h
      have hs1 := ensure_seededIn_mono ca t (GetClusterDeploymentType cd) hs
      obtain ⟨h1, h2, h3, h4⟩ := hs1
      cases hins : cd.installed with
      | true =>
          rw [hins] at h
          simp only [if_true] at h
          exact processConditions_seededIn _ _ _ _ _ h
            ⟨isSome_mapGet_mapInc _ _ _ h1, isSome_mapGet_mapInc _ _ _ h2, h3, h4⟩
      | false =>
          rw [hins] at h
          simp only [Bool.false_eq_true, if_false] at h
          refine processConditions_seededIn _ _ _ _ _ h
            ⟨isSome_mapGet_mapInc _ _ _ h1, h2, ?_, h4⟩
          intro b inner hb
          rw [mapGet_map_bucket] at hb
          cases hm :
              mapGet (ensureClusterTypeBuckets ca
                (GetClusterDeploymentType cd)).uninstalled b with
          | none => rw [hm] at hb; cases hb
          | some v =>
              rw [hm] at hb
              simp only [Option.map_some', Option.some.injEq] at hb
              subst hb
              by_cases hgt :
                  now - cd.creationTimestamp > (ParseDuration b).getD 0
              · rw [if_pos hgt]
                exact isSome_mapGet_mapInc _ _ _ (h3 b v hm)
              · rw [if_neg hgt]
                exact h3 b v hm

/-- A record that is not filtered out ends up seeded across all maps. -/
theorem processCluster_seeds (now : Int) (ca ca' : clusterAccumulator)
    (cd : ClusterDeployment)
    (hskip : skipsCluster ca.clusterCreationTimeFilter now cd = false)
    (h : processCluster now ca cd = some ca') :
    seededIn ca' (GetClusterDeploymentType cd) := by
  unfold processCluster at h
  rw [hskip] at h
  simp only [Bool.false_eq_true, if_false] at h
  have hs1 := ensure_seededIn_self ca (GetClusterDeploymentType cd)
  obtain ⟨h1, h2, h3, h4⟩ := hs1
  cases hins : cd.installed with
  | true =>
      rw [hins] at h
      simp only [if_true] at h
      exact processConditions_seededIn _ _ _ _ _ h
        ⟨isSome_mapGet_mapInc _ _ _ h1, isSome_mapGet_mapInc _ _ _ h2, h3, h4⟩
  | false =>
      rw [hins] at h
      simp only [Bool.false_eq_true, if_false] at h
      refine processConditions_seededIn _ _ _ _ _ h
        ⟨isSome_mapGet_mapInc _ _ _ h1, h2, ?_, h4⟩
      intro b inner hb
      rw [mapGet_map_bucket] at hb
      cases hm :
          mapGet (ensureClusterTypeBuckets ca
            (GetClusterDeploymentType cd)).uninstalled b with
      | none => rw [hm] at hb; cases hb
      | some v =>
          rw [hm] at hb
          simp only [Option.map_some', Option.some.injEq] at hb
          subst hb
          by_cases hgt : now - cd.creationTimestamp > (ParseDuration b).getD 0
          · rw [if_pos hgt]
            exact isSome_mapGet_mapInc _ _ _ (h3 b v hm)
          · rw [if_neg hgt]
            exact h3 b v hm

/-! ## The snapshot loop -/

/-- A successful pass over `l1 ++ l2` decomposes at the seam. -/
theorem processClusters_append (now : Int) (l1 l2 : List ClusterDeployment) :
    ∀ ca ca', processClusters now ca (l1 ++ l2) = some ca' →
      ∃ ca1, processClusters now ca l1 = some ca1 ∧
        processClusters now ca1 l2 = some ca' := by
  induction l1 with
  | nil =>
      intro ca ca' h
      exact ⟨ca, rfl, h⟩
  | cons cd rest ih =>
      intro ca ca' h
      simp only [List.cons_append, processClusters] at h ⊢
      cases hp : processCluster now ca cd with
      | none => rw [hp] at h; cases h
      | some ca2 =>
          rw [hp] at h
          exact ih _ _ h

theorem processClusters_seededIn_mono (now : Int) (cds : List ClusterDeployment) :
    ∀ ca ca' t, processClusters now ca cds = some ca' →
      seededIn ca t → seededIn ca' t := by
  induction cds with
  | nil =>
      intro ca ca' t h hs
      simp only [processClusters, Option.some.injEq] at h
      subst h
      exact hs
  | cons cd rest ih =>
      intro ca ca' t h hs
      simp only [processClusters] at h
      cases hp : processCluster now ca cd with
      | none => rw [hp] at h; cases h
      | some ca2 =>
          rw [hp] at h
          exact ih _ _ _ h (processCluster_seededIn_mono now ca ca2 cd t hp hs)

theorem processClusters_uninstalled_isSome (now : Int) (cds : List ClusterDeployment) :
    ∀ ca ca' b, processClusters now ca cds = some ca' →
      (mapGet ca.uninstalled b).isSome = true →
      (mapGet ca'.uninstalled b).isSome = true := by
  induction cds with
  | nil =>
      intro ca ca' b h hb
      simp only [processClusters, Option.some.injEq] at h
      subst h
      exact hb
  | cons cd rest ih =>
      intro ca ca' b h hb
      simp only [processClusters] at h
      cases hp : processCluster now ca cd with
      | none => rw [hp] at h; cases h
      | some ca2 =>
          rw [hp] at h
          refine ih _ _ _ h ?_
          rw [processCluster_uninstalled_isSome now ca ca2 cd hp b]
          exact hb

theorem processClusters_conditions_isSome (now : Int) (cds : List ClusterDeployment) :
    ∀ ca ca' c, processClusters now ca cds = some ca' →
      (mapGet ca.conditions c).isSome = true →
      (mapGet ca'.conditions c).isSome = true := by
  induction cds with
  | nil =>
      intro ca ca' c h hc
      simp only [processClusters, Option.some.injEq] at h
      subst h
      exact hc
  | cons cd rest ih =>
      intro ca ca' c h hc
      simp only [processClusters] at h
      cases hp : processCluster now ca cd with
      | none => rw [hp] at h; cases h
      | some ca2 =>
          rw [hp] at h
          exact ih _ _ _ h (processCluster_conditions_isSome now ca ca2 cd c hp hc)

theorem processClusters_filter (now : Int) (cds : List ClusterDeployment) :
    ∀ ca ca', processClusters now ca cds = some ca' →
      ca'.clusterCreationTimeFilter = ca.clusterCreationTimeFilter := by
  induction cds with
  | nil =>
      intro ca ca' h
      simp only [processClusters, Option.some.injEq] at h
      subst h
      rfl
  | cons cd rest ih =>
      intro ca ca' h
      simp only [processClusters] at h
      cases hp : processCluster now ca cd with
      | none => rw [hp] at h; cases h
      | some ca2 =>
          rw [hp] at h
          rw [ih _ _ h, processCluster_filter now ca ca2 cd hp]

/-! ## What the constructor guarantees -/

theorem seedBuckets_isSome (bs : List String) :
    ∀ acc out b, seedBuckets acc bs = some out →
      (b ∈ bs ∨ (mapGet acc b).isSome = true) →
      (mapGet out b).isSome = true := by
  induction bs with
  | nil =>
      intro acc out b h hb
      simp only [seedBuckets, Option.some.injEq] at h
      subst h
      rcases hb with hb | hb
      · simp at hb
      · exact hb
  | cons durStr rest ih =>
      intro acc out b h hb
      simp only [seedBuckets] at h
      cases hp : ParseDuration durStr with
      | none => rw [hp] at h; cases h
      | some d =>
          rw [hp] at h
          refine ih _ _ _ h ?_
          rcases hb with hb | hb
          · rcases List.mem_cons.mp hb with hb1 | hb1
            · subst hb1
              exact Or.inr (by rw [mapGet_mapSet_self]; rfl)
            · exact Or.inl hb1
          · by_cases he : b = durStr
            · subst he
              exact Or.inr (by rw [mapGet_mapSet_self]; rfl)
            · exact Or.inr (by rw [mapGet_mapSet_ne _ _ _ _ he]; exact hb)

theorem seedBuckets_inner (bs : List String) :
    ∀ acc out, (∀ b inner, mapGet acc b = some inner → inner = []) →
      seedBuckets acc bs = some out →
      ∀ b inner, mapGet out b = some inner → inner = [] := by
  induction bs with
  | nil =>
      intro acc out hacc h
      simp only [seedBuckets, Option.some.injEq] at h
      subst h
      exact hacc
  | cons durStr rest ih =>
      intro acc out hacc h
      simp only [seedBuckets] at h
      cases hp : ParseDuration durStr with
      | none => rw [hp] at h; cases h
      | some d =>
          rw [hp] at h
          refine ih _ _ ?_ h
          intro b inner hb
          by_cases he : b = durStr
          · subst he
            rw [mapGet_mapSet_self] at hb
            cases hb
            rfl
          · rw [mapGet_mapSet_ne _ _ _ _ he] at hb
            exact hacc b inner hb

theorem condSeed_isSome (l : List String) :
    ∀ (m : List (String × List (String × Nat))) (c : String),
      (c ∈ l ∨ (mapGet m c).isSome = true) →
      (mapGet (l.foldl (fun m c => mapSet m c []) m) c).isSome = true := by
  induction l with
  | nil =>
      intro m c hc
      rcases hc with hc | hc
      · simp at hc
      · exact hc
  | cons c0 rest ih =>
      intro m c hc
      simp only [List.foldl_cons]
      refine ih _ _ ?_
      rcases hc with hc | hc
      · rcases List.mem_cons.mp hc with hc1 | hc1
        · subst hc1
          exact Or.inr (by rw [mapGet_mapSet_self]; rfl)
        · exact Or.inl hc1
      · by_cases he : c = c0
        · subst he
          exact Or.inr (by rw [mapGet_mapSet_self]; rfl)
        · exact Or.inr (by rw [mapGet_mapSet_ne _ _ _ _ he]; exact hc)

theorem newClusterAccumulator_filter (f : Option Int) (bs : List String)
    (ca0 : clusterAccumulator) (h : newClusterAccumulator f bs = some ca0) :
    ca0.clusterCreationTimeFilter = f := by
  unfold newClusterAccumulator at h
  cases hsb : seedBuckets [] bs with
  | none => rw [hsb] at h; cases h
  | some unins =>
      rw [hsb] at h
      simp only [Option.some.injEq] at h
      subst h
      rfl

theorem newClusterAccumulator_bucket_isSome (f : Option Int) (bs : List String)
    (ca0 : clusterAccumulator) (b : String)
    (h : newClusterAccumulator f bs = some ca0) (hb : b ∈ bs) :
    (mapGet ca0.uninstalled b).isSome = true := by
  unfold newClusterAccumulator at h
  cases hsb : seedBuckets [] bs with
  | none => rw [hsb] at h; cases h
  | some unins =>
      rw [hsb] at h
      simp only [Option.some.injEq] at h
      subst h
      exact seedBuckets_isSome bs [] unins b hsb (Or.inl hb)

theorem newClusterAccumulator_condition_isSome (f : Option Int) (bs : List String)
    (ca0 : clusterAccumulator) (c : String)
    (h : newClusterAccumulator f bs = some ca0)
    (hc : c ∈ AllClusterDeploymentConditions) :
    (mapGet ca0.conditions c).isSome = true := by
  unfold newClusterAccumulator at h
  cases hsb : seedBuckets [] bs with
  | none => rw [hsb] at h; cases h
  | some unins =>
      rw [hsb] at h
      simp only [Option.some.injEq] at h
      subst h
      exact condSeed_isSome _ _ _ (Or.inl hc)

/-- A fresh accumulator reads zero everywhere. -/
theorem newClusterAccumulator_counts (f : Option Int) (bs : List String)
    (ca0 : clusterAccumulator) (h : newClusterAccumulator f bs = some ca0) :
    ∀ t, totalCount ca0 t = 0 ∧ installedCount ca0 t = 0 ∧
      ∀ b, bucketCount ca0 b t = 0 := by
  unfold newClusterAccumulator at h
  cases hsb : seedBuckets [] bs with
  | none => rw [hsb] at h; cases h
  | some unins =>
      rw [hsb] at h
      simp only [Option.some.injEq] at h
      subst h
      intro t
      refine ⟨rfl, rfl, ?_⟩
      intro b
      unfold bucketCount
      cases hm : mapGet unins b with
      | none => simp [hm, mapGet]
      | some v =>
          have hv : v = [] :=
            seedBuckets_inner bs [] unins (by intro b inner hb; cases hb) hsb b v hm
          subst hv
          simp [hm, mapGet]

/-! ## Claim theorems -/

theorem processJobsLoop_eq (jobs : List Job) :
    ∀ running failed,
      processJobsLoop running failed jobs =
        (running +
          jobs.countP (fun j => decide (j.completionTime = none ∧ j.failed = 0)),
         failed +
          jobs.countP (fun j => decide (j.completionTime = none ∧ 0 < j.failed))) := by
  induction jobs with
  | nil => intro r f; simp [processJobsLoop]
  | cons job rest ih =>
      intro r f
      by_cases hc : job.completionTime = none
      · by_cases hf : job.failed > 0
        · have hz : ¬ job.failed = 0 := Nat.pos_iff_ne_zero.mp hf
          have e1 : decide (job.completionTime = none ∧ job.failed = 0) = false := by
            simp [hz]
          have e2 : decide (job.completionTime = none ∧ 0 < job.failed) = true := by
            simp [hc, hf]
          rw [processJobsLoop, if_pos hc, if_pos hf, ih]
          simp only [List.countP_cons, e1, e2, Bool.false_eq_true, if_false,
            if_true, Prod.mk.injEq]
          refine ⟨by omega, by omega⟩
        · have hz : job.failed = 0 := Nat.eq_zero_of_not_pos hf
          have e1 : decide (job.completionTime = none ∧ job.failed = 0) = true := by
            simp [hc, hz]
          have e2 : decide (job.completionTime = none ∧ 0 < job.failed) = false := by
            simp [hz]
          rw [processJobsLoop, if_pos hc, if_neg hf, ih]
          simp only [List.countP_cons, e1, e2, Bool.false_eq_true, if_false,
            if_true, Prod.mk.injEq]
          refine ⟨by omega, by omega⟩
      · have e1 : decide (job.completionTime = none ∧ job.failed = 0) = false := by
          simp [hc]
        have e2 : decide (job.completionTime = none ∧ 0 < job.failed) = false := by
          simp [hc]
        rw [processJobsLoop, if_neg hc, ih]
        simp only [List.countP_cons, e1, e2, Bool.false_eq_true, if_false,
          if_true, Prod.mk.injEq]
        refine ⟨by omega, by omega⟩

/-- C7: `processJobs` counts exactly one `running` per job with nil
completion time and zero failures, exactly one `failed` per job with nil
completion time and positive failures, and nothing for a completed job. -/
theorem processJobs_classification (jobs : List Job) :
    processJobs jobs =
      (jobs.countP (fun j => decide (j.completionTime = none ∧ j.failed = 0)),
       jobs.countP (fun j => decide (j.completionTime = none ∧ 0 < j.failed))) := by
  unfold processJobs
  rw [processJobsLoop_eq]
  simp

/-- C6: with a cutoff configured, a record strictly older than the cutoff is
skipped with no side effect at all — the accumulator is returned unchanged,
so nothing is counted and nothing is zero-seeded. -/
theorem processCluster_cutoff_skip (now : Int) (ca : clusterAccumulator)
    (cd : ClusterDeployment) (f : Int)
    (hf : ca.clusterCreationTimeFilter = some f)
    (hold : f < now - cd.creationTimestamp) :
    processCluster now ca cd = some ca := by
  apply processCluster_skip
  unfold skipsCluster
  rw [hf]
  simpa using hold

/-- C6 witness. -/
theorem processCluster_cutoff_skip_witness :
    ({ clusterCreationTimeFilter := some 5, total := [], installed := [],
        uninstalled := [], conditions := [] } :
        clusterAccumulator).clusterCreationTimeFilter = some 5 ∧
    (5 : Int) < 10 - 0 ∧
    processCluster 10
      { clusterCreationTimeFilter := some 5, total := [], installed := [],
        uninstalled := [], conditions := [] }
      { creationTimestamp := 0, labels := none, installed := false,
        conditions := [] } =
      some { clusterCreationTimeFilter := some 5, total := [], installed := [],
             uninstalled := [], conditions := [] } :=
  ⟨rfl, by decide,
    processCluster_cutoff_skip 10
      { clusterCreationTimeFilter := some 5, total := [], installed := [],
        uninstalled := [], conditions := [] }
      { creationTimestamp := 0, labels := none, installed := false,
        conditions := [] }
      5 rfl (by decide)⟩

/-- C5 counterexample: a record whose type label is present but *empty* is
not resolved to the default type constant — it is counted under the empty
string. -/
theorem empty_type_label_cex :
    GetClusterDeploymentType
      { creationTimestamp := 0, labels := some [(HiveClusterTypeLabel, "")],
        installed := false, conditions := [] } ≠ DefaultClusterType := by
  decide

/-- C5 (amended): a record whose type label is *absent* (nil labels map or
key not set) resolves to the default type constant and is processed
identically to a record explicitly labeled with that constant's value; a
present-but-empty label is taken as-is. -/
theorem absent_type_label_default (cd : ClusterDeployment)
    (h : cd.labels = none ∨
      ∃ ls, cd.labels = some ls ∧ mapGet ls HiveClusterTypeLabel = none) :
    GetClusterDeploymentType cd = DefaultClusterType ∧
    ∀ (now : Int) (ca : clusterAccumulator),
      processCluster now ca cd =
        processCluster now ca
          { cd with labels := some [(HiveClusterTypeLabel, DefaultClusterType)] } := by
  have htype : GetClusterDeploymentType cd = DefaultClusterType := by
    rcases h with h | ⟨ls, hls, hget⟩
    · unfold GetClusterDeploymentType
      rw [h]
    · unfold GetClusterDeploymentType
      rw [hls]
      simp [hget]
  have htype2 :
      GetClusterDeploymentType
        { cd with labels := some [(HiveClusterTypeLabel, DefaultClusterType)] } =
        DefaultClusterType := by
    unfold GetClusterDeploymentType
    simp [mapGet]
  refine ⟨htype, ?_⟩
  intro now ca
  simp only [processCluster, skipsCluster, htype, htype2]

/-- C5 witness. -/
theorem absent_type_label_default_witness :
    GetClusterDeploymentType
      { creationTimestamp := 0, labels := none, installed := true,
        conditions := [] } = DefaultClusterType ∧
    processCluster 0
      { clusterCreationTimeFilter := none, total := [], installed := [],
        uninstalled := [], conditions := [] }
      { creationTimestamp := 0, labels := none, installed := true,
        conditions := [] } =
      processCluster 0
        { clusterCreationTimeFilter := none, total := [], installed := [],
          uninstalled := [], conditions := [] }
        { creationTimestamp := 0,
          labels := some [(HiveClusterTypeLabel, DefaultClusterType)],
          installed := true, conditions := [] } :=
  ⟨(absent_type_label_default
      { creationTimestamp := 0, labels := none, installed := true,
        conditions := [] } (Or.inl rfl)).1,
    (absent_type_label_default
      { creationTimestamp := 0, labels := none, installed := true,
        conditions := [] } (Or.inl rfl)).2 0
      { clusterCreationTimeFilter := none, total := [], installed := [],
        uninstalled := [], conditions := [] }⟩

/-- C1 counterexample: a freshly constructed accumulator, fed a record whose
only condition has a type outside the known set and status true, does not
silently ignore that condition — `processCluster` hits the nil inner map
and panics (`none`), so the record is not counted at all. -/
theorem unknown_condition_panics_cex :
    "SomethingNew" ∉ AllClusterDeploymentConditions ∧
    (newClusterAccumulator none (["0h"])).map
      (fun ca => processCluster 0 ca
        { creationTimestamp := 0, labels := none, installed := true,
          conditions := [{ condType := "SomethingNew", status := ConditionStatus.conditionTrue }] }) = some none := by
  decide

/-- C1 (amended): a record carrying a status-true condition whose type is
not a key of the conditions map makes `processCluster` fail (the Go code
panics assigning to an entry of the nil inner map); the condition is not
silently ignored, and the whole record's counting is lost with the pass. -/
theorem processCluster_unknown_condition_fails (now : Int)
    (ca : clusterAccumulator) (cd : ClusterDeployment)
    (c : ClusterDeploymentCondition)
    (hmem : c ∈ cd.conditions)
    (htrue : c.status = ConditionStatus.conditionTrue)
    (hunk : mapGet ca.conditions c.condType = none)
    (hskip : skipsCluster ca.clusterCreationTimeFilter now cd = false) :
    processCluster now ca cd = none := by
  unfold processCluster
  rw [hskip]
  simp only [Bool.false_eq_true, if_false]
  have hnone :
      mapGet (ca.conditions.map
        (fun p => (p.1, seedZero p.2 (GetClusterDeploymentType cd))))
        c.condType = none := by
    rw [mapGet_map_seedZero, hunk]
    rfl
  cases hins : cd.installed with
  | true =>
      rw [if_pos rfl]
      exact processConditions_unknown _ c.condType cd.conditions _
        ⟨c, hmem, htrue, rfl⟩ hnone
  | false =>
      rw [if_neg (by decide)]
      exact processConditions_unknown _ c.condType cd.conditions _
        ⟨c, hmem, htrue, rfl⟩ hnone

/-- C1 witness. -/
theorem processCluster_unknown_condition_fails_witness :
    processCluster 0
      { clusterCreationTimeFilter := none, total := [], installed := [],
        uninstalled := [], conditions := [] }
      { creationTimestamp := 0, labels := none, installed := false,
        conditions := [{ condType := "Weird", status := ConditionStatus.conditionTrue }] } = none :=
  processCluster_unknown_condition_fails 0
    { clusterCreationTimeFilter := none, total := [], installed := [],
      uninstalled := [], conditions := [] }
    { creationTimestamp := 0, labels := none, installed := false,
      conditions := [{ condType := "Weird", status := ConditionStatus.conditionTrue }] }
    { condType := "Weird", status := ConditionStatus.conditionTrue }
    (by decide) rfl rfl rfl

/-- C4 counterexample: with a bucket string that fails to parse, the tick
whose cluster list succeeded aborts entirely — the job sections are skipped
too, even though both job fetches succeeded. -/
theorem config_error_skips_jobs_cex :
    newClusterAccumulator none (["bogus"]) = none ∧
    (runTick 0 (some []) (["bogus"])
        (some [{ completionTime := none, failed := 0 }])
        (some [])).installJobMetrics = none ∧
    (runTick 0 (some []) (["bogus"])
        (some [{ completionTime := none, failed := 0 }])
        (some [])).uninstallJobMetrics = none := by
  decide

/-- C4 (amended): when accumulator construction fails, the early `return`
aborts the entire tick — neither cluster-derived nor job-derived metrics are
computed or published that tick — but the closure returns normally (no
panic), so the process does not exit and the loop ticks again. -/
theorem runTick_config_error_aborts_tick (now : Int)
    (cds : List ClusterDeployment) (buckets : List String)
    (installJobs uninstallJobs : Option (List Job))
    (hcfg : newClusterAccumulator none buckets = none) :
    runTick now (some cds) buckets installJobs uninstallJobs =
      { clusterMetricsPublished := none, installJobMetrics := none,
        uninstallJobMetrics := none, panicked := false } := by
  unfold runTick
  rw [hcfg]

/-- C4 witness. -/
theorem runTick_config_error_aborts_tick_witness :
    newClusterAccumulator none (["bogus"]) = none ∧
    runTick 5 (some []) (["bogus"]) (some []) none =
      { clusterMetricsPublished := none, installJobMetrics := none,
        uninstallJobMetrics := none, panicked := false } :=
  ⟨by decide,
    runTick_config_error_aborts_tick 5 [] (["bogus"]) (some []) none (by decide)⟩

/-- C2: for a non-installed, non-filtered record of age
`D = now - creationTime`, each configured bucket's count for the record's
resolved type goes up by one exactly when the bucket's parsed threshold is
strictly less than `D`, and is unchanged when the threshold is `≥ D`. -/
theorem processCluster_bucket_increment (now : Int) (ca ca' : clusterAccumulator)
    (cd : ClusterDeployment) (b : String) (thr : Int)
    (hskip : skipsCluster ca.clusterCreationTimeFilter now cd = false)
    (hni : cd.installed = false)
    (h : processCluster now ca cd = some ca')
    (hb : (mapGet ca.uninstalled b).isSome = true)
    (hp : ParseDuration b = some thr) :
    bucketCount ca' b (GetClusterDeploymentType cd) =
      bucketCount ca b (GetClusterDeploymentType cd) +
        (if thr < now - cd.creationTimestamp then 1 else 0) := by
  rw [processCluster_bucketCount_not_installed now ca ca' cd hskip hni h b
    (GetClusterDeploymentType cd)]
  rw [hp]
  simp [hb]

/-- C8: a single processed record never moves both an `installed` count and
an uninstalled bucket count: for every type and bucket, at least one of the
two is unchanged. -/
theorem processCluster_installed_uninstalled_exclusive (now : Int)
    (ca ca' : clusterAccumulator) (cd : ClusterDeployment)
    (h : processCluster now ca cd = some ca') (t b : String) :
    installedCount ca' t = installedCount ca t ∨
      bucketCount ca' b t = bucketCount ca b t := by
  cases hskip : skipsCluster ca.clusterCreationTimeFilter now cd with
  | true =>
      left
      rw [processCluster_skip now ca cd hskip] at h
      cases h
      rfl
  | false =>
      cases hins : cd.installed with
      | true =>
          right
          exact processCluster_bucketCount_installed now ca ca' cd hskip hins h b t
      | false =>
          left
          rw [processCluster_installedCount now ca ca' cd hskip h t]
          simp [hins]

/-- One processed record preserves the count invariants
`installed ≤ total` and `bucket ≤ total - installed`. -/
theorem processCluster_counts_inv (now : Int) (ca ca' : clusterAccumulator)
    (cd : ClusterDeployment) (h : processCluster now ca cd = some ca')
    (hinv : ∀ t, installedCount ca t ≤ totalCount ca t ∧
      ∀ b, bucketCount ca b t ≤ totalCount ca t - installedCount ca t) :
    ∀ t, installedCount ca' t ≤ totalCount ca' t ∧
      ∀ b, bucketCount ca' b t ≤ totalCount ca' t - installedCount ca' t := by
  intro t
  cases hskip : skipsCluster ca.clusterCreationTimeFilter now cd with
  | true =>
      rw [processCluster_skip now ca cd hskip] at h
      cases h
      exact hinv t
  | false =>
      obtain ⟨hIT, hB⟩ := hinv t
      have htot := processCluster_totalCount now ca ca' cd hskip h t
      have hini := processCluster_installedCount now ca ca' cd hskip h t
      cases hins : cd.installed with
      | true =>
          have hbk : ∀ b, bucketCount ca' b t = bucketCount ca b t := fun b =>
            processCluster_bucketCount_installed now ca ca' cd hskip hins h b t
          rw [hins] at hini
          simp only [true_and] at hini
          constructor
          · rw [htot, hini]
            by_cases ht : t = GetClusterDeploymentType cd
            · rw [if_pos ht]
              omega
            · rw [if_neg ht]
              omega
          · intro b
            rw [hbk b, htot, hini]
            by_cases ht : t = GetClusterDeploymentType cd
            · rw [if_pos ht]
              have := hB b
              omega
            · rw [if_neg ht]
              have := hB b
              omega
      | false =>
          have hbk : ∀ b, bucketCount ca' b t =
              bucketCount ca b t +
                (if (mapGet ca.uninstalled b).isSome = true ∧
                    now - cd.creationTimestamp > (ParseDuration b).getD 0 ∧
                    t = GetClusterDeploymentType cd
                 then 1 else 0) := fun b =>
            processCluster_bucketCount_not_installed now ca ca' cd hskip hins h b t
          rw [hins] at hini
          simp only [Bool.false_eq_true, false_and, if_false, Nat.add_zero] at hini
          constructor
          · rw [htot, hini]
            by_cases ht : t = GetClusterDeploymentType cd
            · rw [if_pos ht]
              omega
            · rw [if_neg ht]
              omega
          · intro b
            rw [hbk b, htot, hini]
            have := hB b
            by_cases hcond : (mapGet ca.uninstalled b).isSome = true ∧
                now - cd.creationTimestamp > (ParseDuration b).getD 0 ∧
                t = GetClusterDeploymentType cd
            · rw [if_pos hcond, if_pos hcond.2.2]
              omega
            · rw [if_neg hcond]
              by_cases ht : t = GetClusterDeploymentType cd
              · rw [if_pos ht]
                omega
              · rw [if_neg ht]
                omega

/-- The count invariants hold at every state reachable from one that
satisfies them. -/
theorem processClusters_counts_inv (now : Int) (cds : List ClusterDeployment) :
    ∀ ca ca', processClusters now ca cds = some ca' →
      (∀ t, installedCount ca t ≤ totalCount ca t ∧
        ∀ b, bucketCount ca b t ≤ totalCount ca t - installedCount ca t) →
      (∀ t, installedCount ca' t ≤ totalCount ca' t ∧
        ∀ b, bucketCount ca' b t ≤ totalCount ca' t - installedCount ca' t) := by
  induction cds with
  | nil =>
      intro ca ca' h hinv
      simp only [processClusters, Option.some.injEq] at h
      subst h
      exact hinv
  | cons cd rest ih =>
      intro ca ca' h hinv
      simp only [processClusters] at h
      cases hp : processCluster now ca cd with
      | none => rw [hp] at h; cases h
      | some ca2 =>
          rw [hp] at h
          exact ih _ _ h (processCluster_counts_inv now ca ca2 cd hp hinv)

/-- C9: starting from a freshly constructed accumulator, after any
successful pass `installed[t] ≤ total[t]` and every bucket's count is at
most `total[t] - installed[t]`; moreover each non-skipped record adds
exactly one to `total` for its resolved type. -/
theorem processClusters_count_invariants (now : Int) (filter : Option Int)
    (buckets : List String) (ca0 ca' : clusterAccumulator)
    (cds : List ClusterDeployment)
    (h0 : newClusterAccumulator filter buckets = some ca0)
    (h : processClusters now ca0 cds = some ca') :
    (∀ t, installedCount ca' t ≤ totalCount ca' t ∧
      ∀ b, bucketCount ca' b t ≤ totalCount ca' t - installedCount ca' t) ∧
    (∀ (ca1 ca2 : clusterAccumulator) (cd : ClusterDeployment),
      processCluster now ca1 cd = some ca2 →
      skipsCluster ca1.clusterCreationTimeFilter now cd = false →
      totalCount ca2 (GetClusterDeploymentType cd) =
        totalCount ca1 (GetClusterDeploymentType cd) + 1) := by
  constructor
  · refine processClusters_counts_inv now cds ca0 ca' h ?_
    intro t
    obtain ⟨ht0, hi0, hb0⟩ := newClusterAccumulator_counts filter buckets ca0 h0 t
    refine ⟨by omega, fun b => ?_⟩
    rw [hb0 b]
    omega
  · intro ca1 ca2 cd hp hskip
    rw [processCluster_totalCount now ca1 ca2 cd hskip hp (GetClusterDeploymentType cd)]
    simp

/-- One processed record preserves bucket antitonicity between two buckets
whose thresholds parse as `thr1 ≤ thr2` (with bucket `b1` configured). -/
theorem processCluster_antitone_inv (now : Int) (b1 b2 : String)
    (thr1 thr2 : Int) (hp1 : ParseDuration b1 = some thr1)
    (hp2 : ParseDuration b2 = some thr2) (hle : thr1 ≤ thr2)
    (ca ca' : clusterAccumulator) (cd : ClusterDeployment)
    (h : processCluster now ca cd = some ca')
    (hb1 : (mapGet ca.uninstalled b1).isSome = true)
    (hinv : ∀ t, bucketCount ca b2 t ≤ bucketCount ca b1 t) :
    ∀ t, bucketCount ca' b2 t ≤ bucketCount ca' b1 t := by
  intro t
  cases hskip : skipsCluster ca.clusterCreationTimeFilter now cd with
  | true =>
      rw [processCluster_skip now ca cd hskip] at h
      cases h
      exact hinv t
  | false =>
      cases hins : cd.installed with
      | true =>
          rw [processCluster_bucketCount_installed now ca ca' cd hskip hins h b1 t,
            processCluster_bucketCount_installed now ca ca' cd hskip hins h b2 t]
          exact hinv t
      | false =>
          rw [processCluster_bucketCount_not_installed now ca ca' cd hskip hins h b1 t,
            processCluster_bucketCount_not_installed now ca ca' cd hskip hins h b2 t]
          rw [hp1, hp2]
          have := hinv t
          by_cases hcond2 : (mapGet ca.uninstalled b2).isSome = true ∧
              now - cd.creationTimestamp > (some thr2).getD 0 ∧
              t = GetClusterDeploymentType cd
          · have hcond1 : (mapGet ca.uninstalled b1).isSome = true ∧
                now - cd.creationTimestamp > (some thr1).getD 0 ∧
                t = GetClusterDeploymentType cd := by
              refine ⟨hb1, ?_, hcond2.2.2⟩
              have h2 := hcond2.2.1
              simp only [Option.getD_some] at h2 ⊢
              omega
            rw [if_pos hcond2, if_pos hcond1]
            omega
          · rw [if_neg hcond2]
            by_cases hcond1 : (mapGet ca.uninstalled b1).isSome = true ∧
                now - cd.creationTimestamp > (some thr1).getD 0 ∧
                t = GetClusterDeploymentType cd
            · rw [if_pos hcond1]
              omega
            · rw [if_neg hcond1]
              omega

theorem processClusters_antitone_inv (now : Int) (b1 b2 : String)
    (thr1 thr2 : Int) (hp1 : ParseDuration b1 = some thr1)
    (hp2 : ParseDuration b2 = some thr2) (hle : thr1 ≤ thr2)
    (cds : List ClusterDeployment) :
    ∀ ca ca', processClusters now ca cds = some ca' →
      (mapGet ca.uninstalled b1).isSome = true →
      (∀ t, bucketCount ca b2 t ≤ bucketCount ca b1 t) →
      ∀ t, bucketCount ca' b2 t ≤ bucketCount ca' b1 t := by
  induction cds with
  | nil =>
      intro ca ca' h hb1 hinv
      simp only [processClusters, Option.some.injEq] at h
      subst h
      exact hinv
  | cons cd rest ih =>
      intro ca ca' h hb1 hinv
      simp only [processClusters] at h
      cases hp : processCluster now ca cd with
      | none => rw [hp] at h; cases h
      | some ca2 =>
          rw [hp] at h
          refine ih _ _ h ?_ ?_
          · rw [processCluster_uninstalled_isSome now ca ca2 cd hp b1]
            exact hb1
          · exact processCluster_antitone_inv now b1 b2 thr1 thr2 hp1 hp2 hle
              ca ca2 cd hp hb1 hinv

/-- C10: after any successful pass from a fresh accumulator, bucket counts
are antitone in the parsed threshold — a bucket with a larger threshold
never counts more clusters of any type than one with a smaller threshold. -/
theorem processClusters_bucket_antitone (now : Int) (filter : Option Int)
    (buckets : List String) (ca0 ca' : clusterAccumulator)
    (cds : List ClusterDeployment) (b1 b2 t : String) (thr1 thr2 : Int)
    (h0 : newClusterAccumulator filter buckets = some ca0)
    (h : processClusters now ca0 cds = some ca')
    (hb1 : b1 ∈ buckets) (hb2 : b2 ∈ buckets)
    (hp1 : ParseDuration b1 = some thr1) (hp2 : ParseDuration b2 = some thr2)
    (hle : thr1 ≤ thr2) :
    bucketCount ca' b2 t ≤ bucketCount ca' b1 t := by
  refine processClusters_antitone_inv now b1 b2 thr1 thr2 hp1 hp2 hle cds ca0 ca' h
    (newClusterAccumulator_bucket_isSome filter buckets ca0 b1 h0 hb1) ?_ t
  intro t'
  obtain ⟨-, -, hb0⟩ := newClusterAccumulator_counts filter buckets ca0 h0 t'
  rw [hb0 b1, hb0 b2]

/-- C3: every cluster type resolved from a record that passed the cutoff
filter ends with an entry — zero-seeded if never incremented — in the total
map, the installed map, every configured bucket's map, and every known
condition type's map of the final accumulator. -/
theorem processClusters_zero_seeding (now : Int) (filter : Option Int)
    (buckets : List String) (ca0 ca' : clusterAccumulator)
    (cds : List ClusterDeployment) (cd : ClusterDeployment)
    (h0 : newClusterAccumulator filter buckets = some ca0)
    (h : processClusters now ca0 cds = some ca')
    (hmem : cd ∈ cds)
    (hpass : skipsCluster filter now cd = false) :
    (mapGet ca'.total (GetClusterDeploymentType cd)).isSome = true ∧
    (mapGet ca'.installed (GetClusterDeploymentType cd)).isSome = true ∧
    (∀ b ∈ buckets, ∃ inner, mapGet ca'.uninstalled b = some inner ∧
      (mapGet inner (GetClusterDeploymentType cd)).isSome = true) ∧
    (∀ c ∈ AllClusterDeploymentConditions, ∃ inner,
      mapGet ca'.conditions c = some inner ∧
      (mapGet inner (GetClusterDeploymentType cd)).isSome = true) := by
  obtain ⟨l1, l2, rfl⟩ := List.append_of_mem hmem
  obtain ⟨ca1, h1, h2⟩ := processClusters_append now l1 (cd :: l2) ca0 ca' h
  simp only [processClusters] at h2
  cases hp : processCluster now ca1 cd with
  | none => rw [hp] at h2; cases h2
  | some ca2 =>
      rw [hp] at h2
      have hfil : ca1.clusterCreationTimeFilter = filter := by
        rw [processClusters_filter now l1 ca0 ca1 h1,
          newClusterAccumulator_filter filter buckets ca0 h0]
      have hskip1 : skipsCluster ca1.clusterCreationTimeFilter now cd = false := by
        rw [hfil]
        exact hpass
      have hseed' : seededIn ca' (GetClusterDeploymentType cd) :=
        processClusters_seededIn_mono now l2 ca2 ca' (GetClusterDeploymentType cd) h2
          (processCluster_seeds now ca1 ca2 cd hskip1 hp)
      obtain ⟨hT, hI, hU, hC⟩ := hseed'
      refine ⟨hT, hI, ?_, ?_⟩
      · intro b hb
        have hbs : (mapGet ca'.uninstalled b).isSome = true := by
          refine processClusters_uninstalled_isSome now l2 ca2 ca' b h2 ?_
          rw [processCluster_uninstalled_isSome now ca1 ca2 cd hp b]
          exact processClusters_uninstalled_isSome now l1 ca0 ca1 b h1
            (newClusterAccumulator_bucket_isSome filter buckets ca0 b h0 hb)
        cases hm : mapGet ca'.uninstalled b with
        | none => rw [hm] at hbs; cases hbs
        | some inner => exact ⟨inner, rfl, hU b inner hm⟩
      · intro c hc
        have hcs : (mapGet ca'.conditions c).isSome = true := by
          refine processClusters_conditions_isSome now l2 ca2 ca' c h2 ?_
          refine processCluster_conditions_isSome now ca1 ca2 cd c hp ?_
          exact processClusters_conditions_isSome now l1 ca0 ca1 c h1
            (newClusterAccumulator_condition_isSome filter buckets ca0 c h0 hc)
        cases hm : mapGet ca'.conditions c with
        | none => rw [hm] at hcs; cases hcs
        | some inner => exact ⟨inner, rfl, hC c inner hm⟩

/-! ## Concrete fixtures for exercising the theorems -/

/-- The accumulator `newClusterAccumulator none ["0h", "1h"]` builds. -/
def sampleAccumulator : clusterAccumulator :=
  { clusterCreationTimeFilter := none
    total := []
    installed := []
    uninstalled := [("0h", []), ("1h", [])]
    conditions := [("ClusterImageSetNotFound", []),
      ("ControlPlaneCertificateNotFound", []), ("Unreachable", [])] }

/-- A non-installed, unlabeled cluster record created at time 0. -/
def sampleCluster : ClusterDeployment :=
  { creationTimestamp := 0, labels := none, installed := false, conditions := [] }

/-- The accumulator after processing `sampleCluster` at `now = 1`. -/
def sampleProcessed : clusterAccumulator :=
  (processCluster 1 sampleAccumulator sampleCluster).getD sampleAccumulator

/-- C2 witness. -/
theorem processCluster_bucket_increment_witness :
    skipsCluster sampleAccumulator.clusterCreationTimeFilter 1 sampleCluster = false ∧
    sampleCluster.installed = false ∧
    processCluster 1 sampleAccumulator sampleCluster = some sampleProcessed ∧
    (mapGet sampleAccumulator.uninstalled "0h").isSome = true ∧
    ParseDuration "0h" = some 0 ∧
    bucketCount sampleProcessed "0h" (GetClusterDeploymentType sampleCluster) =
      bucketCount sampleAccumulator "0h" (GetClusterDeploymentType sampleCluster) +
        (if (0 : Int) < 1 - sampleCluster.creationTimestamp then 1 else 0) :=
  ⟨by decide, by decide, by decide, by decide, by decide,
    processCluster_bucket_increment 1 sampleAccumulator sampleProcessed sampleCluster
      "0h" 0 (by decide) (by decide) (by decide) (by decide) (by decide)⟩

/-- C8 witness. -/
theorem processCluster_installed_uninstalled_exclusive_witness :
    processCluster 1 sampleAccumulator sampleCluster = some sampleProcessed ∧
    (installedCount sampleProcessed DefaultClusterType =
        installedCount sampleAccumulator DefaultClusterType ∨
      bucketCount sampleProcessed "0h" DefaultClusterType =
        bucketCount sampleAccumulator "0h" DefaultClusterType) :=
  ⟨by decide,
    processCluster_installed_uninstalled_exclusive 1 sampleAccumulator
      sampleProcessed sampleCluster (by decide) DefaultClusterType "0h"⟩

/-- C9 witness. -/
theorem processClusters_count_invariants_witness :
    newClusterAccumulator none ["0h", "1h"] = some sampleAccumulator ∧
    processClusters 1 sampleAccumulator [sampleCluster] = some sampleProcessed ∧
    installedCount sampleProcessed DefaultClusterType ≤
      totalCount sampleProcessed DefaultClusterType ∧
    bucketCount sampleProcessed "0h" DefaultClusterType ≤
      totalCount sampleProcessed DefaultClusterType -
        installedCount sampleProcessed DefaultClusterType :=
  ⟨by decide, by decide,
    ((processClusters_count_invariants 1 none ["0h", "1h"] sampleAccumulator
        sampleProcessed [sampleCluster] (by decide) (by decide)).1
      DefaultClusterType).1,
    ((processClusters_count_invariants 1 none ["0h", "1h"] sampleAccumulator
        sampleProcessed [sampleCluster] (by decide) (by decide)).1
      DefaultClusterType).2 "0h"⟩

/-- C10 witness. -/
theorem processClusters_bucket_antitone_witness :
    newClusterAccumulator none ["0h", "1h"] = some sampleAccumulator ∧
    processClusters 1 sampleAccumulator [sampleCluster] = some sampleProcessed ∧
    bucketCount sampleProcessed "1h" DefaultClusterType ≤
      bucketCount sampleProcessed "0h" DefaultClusterType :=
  ⟨by decide, by decide,
    processClusters_bucket_antitone 1 none ["0h", "1h"] sampleAccumulator
      sampleProcessed [sampleCluster] "0h" "1h" DefaultClusterType 0 3600000000000
      (by decide) (by decide) (by decide) (by decide) (by decide) (by decide)
      (by decide)⟩

/-- C3 witness. -/
theorem processClusters_zero_seeding_witness :
    newClusterAccumulator none ["0h", "1h"] = some sampleAccumulator ∧
    processClusters 1 sampleAccumulator [sampleCluster] = some sampleProcessed ∧
    skipsCluster none 1 sampleCluster = false ∧
    (mapGet sampleProcessed.total (GetClusterDeploymentType sampleCluster)).isSome =
      true ∧
    (mapGet sampleProcessed.installed
      (GetClusterDeploymentType sampleCluster)).isSome = true :=
  ⟨by decide, by decide, by decide,
    (processClusters_zero_seeding 1 none ["0h", "1h"] sampleAccumulator
      sampleProcessed [sampleCluster] sampleCluster (by decide) (by decide)
      (by decide) (by decide)).1,
    (processClusters_zero_seeding 1 none ["0h", "1h"] sampleAccumulator
      sampleProcessed [sampleCluster] sampleCluster (by decide) (by decide)
      (by decide) (by decide)).2.1⟩

end HiveMetrics
